import Mathlib

/-!
Shallow embedding of the health-audit core of `src/app.py`
(`run_health_audit_notebook` and `run_and_get_health`).

Notebook cells, the cell selector (tag rule, content-heuristic rule,
bounded fallback), the reduced-notebook builder, the output-classification
loop and the HTTP handler are translated definition by definition from the
source.  External effects (reading the notebook file, running the
execution engine, querying the storage file) are modelled as `Except`
valued inputs supplied by the environment.
-/

set_option maxRecDepth 100000

namespace WsbDss

/-- `str.lower()` on the ASCII range (character-by-character lowering). -/
def lowerStr (s : String) : String :=
  String.mk (s.toList.map Char.toLower)

/-- `str.lstrip()`: drop leading whitespace. -/
def pyLstrip (s : String) : String :=
  String.mk (s.toList.dropWhile Char.isWhitespace)

/-- `str.strip()`: drop leading and trailing whitespace. -/
def pyStrip (s : String) : String :=
  String.mk (((s.toList.dropWhile Char.isWhitespace).reverse.dropWhile
    Char.isWhitespace).reverse)

/-- `s.startswith(pat)`. -/
def strStarts (s pat : String) : Bool :=
  pat.toList.isPrefixOf s.toList

/-- A metadata tag value: `isinstance(t, str)` distinguishes string tags
from any other JSON value, so the model keeps just that distinction. -/
inductive TagVal where
  | str (s : String)
  | nonstr
deriving DecidableEq, Repr

/-- A notebook cell as the selector sees it: its source text
(`''.join(cell.source)`) and its metadata tag list
(`cell.get('metadata', {}).get('tags', [])`). -/
structure Cell where
  source : String
  tags : List TagVal
deriving DecidableEq, Repr

/-- The reserved health tag, compared case-insensitively (`t.lower() == 'ui:health'`). -/
def healthTag : String := "ui:health"

/-- The package-installation directive prefix tested by both the heuristic
and the builder (`'%pip install'`). -/
def pipDirective : String := "%pip install"

/-- Containment of a character list in another: `pat` occurs as a
contiguous run of `s`. -/
def charsContain (pat : List Char) : List Char → Bool
  | [] => pat.isEmpty
  | c :: rest => pat.isPrefixOf (c :: rest) || charsContain pat rest

/-- `marker in src` : Python substring containment. -/
def strContains (s pat : String) : Bool :=
  charsContain pat.toList s.toList

/-- One tag matches when it is a string whose lower-case form equals the
health tag (`isinstance(t, str) and t.lower() == 'ui:health'`). -/
def tagMatches (t : TagVal) : Bool :=
  match t with
  | .str s => lowerStr s == healthTag
  | .nonstr => false

/-- A cell is tag-selected when any of its tags matches; the Python inner
loop `for t in tags: ... break` records the cell once any tag matches. -/
def tagSelected (c : Cell) : Bool :=
  c.tags.any tagMatches

/-- The fixed marker-substring list of the content heuristic. -/
def load_markers : List String :=
  [ "listings = pd.read_csv"
  , "calendar = pd.read_csv"
  , "reviews = pd.read_csv"
  , "def run_health_audit"
  , "def persist_health_audit"
  , "persist_health_audit("
  , "run_health_audit("
  ]

/-- A cell is heuristic-selected when it is not a pip-install cell
(`src.lstrip().startswith('%pip install')` skips it) and some marker
substring occurs in its source. -/
def heurSelected (c : Cell) : Bool :=
  !(strStarts (pyLstrip c.source) pipDirective) &&
    load_markers.any (fun m => strContains c.source m)

/-- The shared shape of both selector loops:
`for i, cell in enumerate(nb.cells): if <selected>: last = max(last, i)`,
with `i` the running index and `acc` the running `last_needed_idx`. -/
def idxLoop (p : Cell → Bool) : Nat → Int → List Cell → Int
  | _, acc, [] => acc
  | i, acc, c :: cs =>
      idxLoop p (i + 1) (if p c then max acc (i : Int) else acc) cs

/-- Pass 1 of the selector: the tag loop starting from `last_needed_idx = -1`. -/
def tagCutoff (cells : List Cell) : Int :=
  idxLoop tagSelected 0 (-1) cells

/-- Pass 2 of the selector: the marker-heuristic loop, also from `-1`. -/
def heuristicCutoff (cells : List Cell) : Int :=
  idxLoop heurSelected 0 (-1) cells

/-- The full selector: tag pass, then (only when it found nothing) the
heuristic pass, then the bounded fallback `min(len(nb.cells)-1, 19)`. -/
def lastNeededIdx (cells : List Cell) : Int :=
  let t := tagCutoff cells
  if t < 0 then
    let h := heuristicCutoff cells
    if h < 0 then min ((cells.length : Int) - 1) 19 else h
  else t

/-- The injected synthesis snippet (`post_snippet` in the source), verbatim. -/
def post_snippet : String :=
  "\ntry:\n\taudit = run_health_audit(listings, calendar, reviews, verbose=False)\n\tpersist_health_audit(audit, overwrite=True, verbose=False)\n\tprint(\x27WSB_DSS_HEALTH_PERSISTED\x27)\nexcept Exception as e:\n\tprint(\x27WSB_DSS_HEALTH_ERROR\x27, e)\n"

/-- The appended synthesis cell: `nbformat.v4.new_code_cell(post_snippet)`
(a fresh code cell, no tags). -/
def synthesisCell : Cell :=
  { source := post_snippet, tags := [] }

/-- `selected_cells` before the append: cells `[0 .. cutoff]` with every
cell whose stripped source starts with the pip directive dropped. -/
def filteredPrefixCells (cells : List Cell) (cutoff : Int) : List Cell :=
  (cells.take (cutoff + 1).toNat).filter
    (fun c => !(strStarts (pyStrip c.source) pipDirective))

/-- The subset notebook actually executed: the filtered prefix with the
synthesis cell appended at the end. -/
def buildReduced (cells : List Cell) (cutoff : Int) : List Cell :=
  filteredPrefixCells cells cutoff ++ [synthesisCell]

/-- An output record attached to an executed cell, the tagged union the
classification loop dispatches on via `out.get('output_type')`:
`stream` carries its `text` (absent key defaults to the empty string),
`execute_result` / `display_data` carry a mime-keyed `data` dictionary
(modelled as an association list), `error` carries its `traceback`
line list, and anything else is `other`. -/
inductive OutputRec where
  | stream (text : String)
  | execResult (data : List (String × String))
  | displayData (data : List (String × String))
  | err (traceback : List String)
  | other
deriving DecidableEq, Repr

/-- Dictionary lookup `data['text/plain']`, guarded by
`'text/plain' in data`. -/
def plainTextOf (data : List (String × String)) : Option String :=
  (data.find? (fun kv => kv.1 == "text/plain")).map (fun kv => kv.2)

/-- One step of the classification loop: how `stdout_text` grows on one
output record. -/
def classifyStep (acc : String) (o : OutputRec) : String :=
  match o with
  | .stream t => acc ++ t
  | .execResult d =>
      match plainTextOf d with
      | some s => acc ++ s
      | none => acc
  | .displayData d =>
      match plainTextOf d with
      | some s => acc ++ s
      | none => acc
  | .err tb => acc ++ String.intercalate newline tb
  | .other => acc
where newline : String := "\n"

/-- The whole classification loop over the recorded outputs:
`stdout_text` starts empty and each record is folded in encounter order. -/
def collectText (outs : List OutputRec) : String :=
  outs.foldl classifyStep ""

/-- A cell after execution: the reduced-notebook cell with the outputs the
engine attached to it (`.get('outputs', [])` defaults to the empty list). -/
structure ExecCell where
  cell : Cell
  outputs : List OutputRec
deriving DecidableEq, Repr

/-- `subset_nb.cells[-1]` followed by the classification loop: `none`
models the `IndexError` a `[-1]` access on an empty cell list raises
(caught by the top-level handler). -/
def inspectBuffer (executed : List ExecCell) : Option String :=
  (executed.getLast?).map (fun c => collectText c.outputs)

/-- The success marker printed by the synthesis snippet and searched for
in the concatenated buffer. -/
def successMarker : String := "WSB_DSS_HEALTH_PERSISTED"

/-- The environment of one run: the effectful steps of the pipeline.
`load` is `nbformat.read` (may raise), `exec` is
`NotebookClient(subset_nb, timeout=900, allow_errors=True).execute()`
on a given cell list, returning the executed cells or raising. -/
structure RunEnv where
  load : Except String (List Cell)
  exec : List Cell → Except String (List ExecCell)

/-- The wall-clock timeout handed to the execution engine. -/
def notebookTimeout : Nat := 900

/-- `run_health_audit_notebook`: load the notebook, select the cutoff,
build the reduced notebook, execute it, read the last cell's outputs into
`stdout_text`, record `persisted`, and return `True`; any raising step
lands in the `except` handler, which returns `False`. -/
def run_health_audit_notebook (env : RunEnv) : Bool :=
  match env.load with
  | .error _ => false
  | .ok cells =>
      match env.exec (buildReduced cells (lastNeededIdx cells)) with
      | .error _ => false
      | .ok executed =>
          match inspectBuffer executed with
          | none => false
          | some buf =>
              let persisted := strContains buf successMarker
              true

/-- The `persisted` flag the source computes at line 128: whether the
success marker occurs in the concatenated buffer of the run (false when
the pipeline never reaches the inspection). -/
def markerSeen (env : RunEnv) : Bool :=
  match env.load with
  | .error _ => false
  | .ok cells =>
      match env.exec (buildReduced cells (lastNeededIdx cells)) with
      | .error _ => false
      | .ok executed =>
          match inspectBuffer executed with
          | none => false
          | some buf => strContains buf successMarker

/-- One persisted health row: `dict(zip(["dataset_id","computed_at","metrics"], row))`. -/
structure HealthRow where
  dataset_id : String
  computed_at : String
  metrics : String
deriving DecidableEq, Repr

/-- The JSON object `run_and_get_health` returns: a status discriminator
plus the optional `data` and `error` fields. -/
structure ApiResponse where
  status : String
  data : Option HealthRow
  error : Option String
deriving DecidableEq, Repr

/-- The fixed error message returned when the executor reports failure. -/
def failMsg : String := "Failed to execute health audit cells."

/-- `run_and_get_health` (`POST /api/health/run`): run the executor; on
`False` return the fixed error response without touching storage;
otherwise read the most-recent-by-`computed_at` row (the whole
`duckdb` read is the `storage` input: a row, no row, or a raised
exception caught into an error response). -/
def run_and_get_health (env : RunEnv)
    (storage : Except String (Option HealthRow)) : ApiResponse :=
  let ok := run_health_audit_notebook env
  if ok = false then
    { status := "error", data := none, error := some failMsg }
  else
    match storage with
    | .ok (some row) => { status := "ok", data := some row, error := none }
    | .ok none => { status := "empty", data := none, error := none }
    | .error e => { status := "error", data := none, error := some e }

/-- The per-record contribution to the buffer, written from the spec's
wording of step 4 (stream text; rich output's plain-text payload when the
plain-text key is present; error tracebacks joined by newlines; nothing
otherwise). -/
def contribOf (o : OutputRec) : String :=
  match o with
  | .stream t => t
  | .execResult d =>
      match plainTextOf d with
      | some s => s
      | none => ""
  | .displayData d =>
      match plainTextOf d with
      | some s => s
      | none => ""
  | .err tb => String.intercalate classifyStep.newline tb
  | .other => ""

/-- The spec's description of the buffer: the concatenation, in encounter
order, of every record's contribution. -/
def collectTextSpec : List OutputRec → String
  | [] => ""
  | o :: rest => contribOf o ++ collectTextSpec rest

/-- Whether a tag value is a string (`isinstance(t, str)`). -/
def isStrTag : TagVal → Bool
  | .str _ => true
  | .nonstr => false

/-- A cell with its non-string tag values removed; the selector is blind
to this change because only string tags are ever compared. -/
def stripNonStrTags (c : Cell) : Cell :=
  { c with tags := c.tags.filter isStrTag }

/-! ### Concrete inputs for the witnesses and the counterexample -/

/-- The spec's 5-cell tag scenario: cell 2 tagged `UI:Health` (next to a
non-string tag), marker substrings in cells 3 and 4. -/
def w2tagCell : Cell :=
  { source := "listings.head()", tags := [TagVal.str ("UI:Health"), TagVal.nonstr] }

def w2cells : List Cell :=
  [ { source := "import pandas as pd", tags := [] }
  , { source := "x = 1", tags := [] }
  , w2tagCell
  , { source := "listings = pd.read_csv(path)", tags := [] }
  , { source := "reviews = pd.read_csv(path2)", tags := [] } ]

/-- An untagged cell with no marker substring. -/
def blankCell : Cell := { source := "pass", tags := [] }

def w3m1 : Cell := { source := "listings = pd.read_csv(url)", tags := [] }

def w3m2 : Cell := { source := "calendar = pd.read_csv(url2)", tags := [] }

/-- A pip-install cell that also contains a marker substring: the
heuristic must skip it. -/
def w3pip : Cell :=
  { source := "  %pip install pandas # reviews = pd.read_csv", tags := [] }

/-- The spec's 25-cell heuristic scenario: markers at indices 3 and 7, a
marker-bearing pip cell at index 4, no tags anywhere. -/
def w3cells : List Cell :=
  List.replicate 3 blankCell ++ [w3m1] ++ [w3pip] ++
    List.replicate 2 blankCell ++ [w3m2] ++ List.replicate 17 blankCell

/-- A two-cell document whose first cell is a pip install inside the
copied range. -/
def w6pip : Cell := { source := "%pip install duckdb", tags := [] }

def w6cells : List Cell := [w6pip, w3m1]

/-- An environment whose notebook load raises. -/
def env5 : RunEnv :=
  { load := Except.error ("FileNotFoundError: WSB-DSS.ipynb")
  , exec := fun _ => Except.error ("unreachable") }

/-- Outputs of a run in which the synthesis cell reported the failure
marker: the success marker does not occur in them. -/
def cexOutputs : List OutputRec :=
  [OutputRec.stream ("WSB_DSS_HEALTH_ERROR boom\n")]

def cexExecuted : List ExecCell :=
  [{ cell := synthesisCell, outputs := cexOutputs }]

/-- An environment whose pipeline completes without any exception but
whose synthesis-cell output lacks the success marker. -/
def envC1 : RunEnv :=
  { load := Except.ok [], exec := fun _ => Except.ok cexExecuted }

/-- Outputs exercising every arm of the classification loop. -/
def w8outs : List OutputRec :=
  [ OutputRec.stream ("a")
  , OutputRec.execResult [("text/plain", "b")]
  , OutputRec.other
  , OutputRec.err ["x", "y"]
  , OutputRec.displayData [("image/png", "zz")] ]

def w8exec : List ExecCell :=
  [{ cell := synthesisCell, outputs := w8outs }]

/-- A concrete persisted health row. -/
def w9row : HealthRow :=
  { dataset_id := "wsb", computed_at := "2025-01-01T00:00:00", metrics := "[json]" }

/-! ### Lemmas about the selector loop -/

theorem idxLoop_ge (p : Cell → Bool) :
    ∀ (cs : List Cell) (i : Nat) (acc : Int), acc ≤ idxLoop p i acc cs := by
  intro cs
  induction cs with
  | nil => intro i acc; exact le_refl acc
  | cons c cs ih =>
      intro i acc
      refine le_trans ?_ (ih (i + 1) (if p c then max acc (i : Int) else acc))
      cases hpc : p c <;> simp [hpc]

theorem idxLoop_upper (p : Cell → Bool) :
    ∀ (cs : List Cell) (i : Nat) (acc : Int) (k : Nat) (c : Cell),
      cs[k]? = some c → p c = true → (i : Int) + k ≤ idxLoop p i acc cs := by
  intro cs
  induction cs with
  | nil => intro i acc k c hk; simp at hk
  | cons c0 cs ih =>
      intro i acc k c hk hp
      cases k with
      | zero =>
          simp only [List.getElem?_cons_zero, Option.some.injEq] at hk
          subst hk
          simp only [idxLoop, hp, if_true]
          refine le_trans ?_ (idxLoop_ge p cs (i + 1) (max acc (i : Int)))
          simp
      | succ k =>
          simp only [List.getElem?_cons_succ] at hk
          have h := ih (i + 1) (if p c0 then max acc (i : Int) else acc) k c hk hp
          have harith : (i : Int) + (k + 1 : Nat) = ((i + 1 : Nat) : Int) + k := by
            push_cast; ring
          rw [harith]
          simpa [idxLoop] using h

theorem idxLoop_eq_acc_or_mem (p : Cell → Bool) :
    ∀ (cs : List Cell) (i : Nat) (acc : Int),
      idxLoop p i acc cs = acc ∨
      ∃ (k : Nat) (c : Cell), cs[k]? = some c ∧ p c = true ∧
        idxLoop p i acc cs = (i : Int) + (k : Int) := by
  intro cs
  induction cs with
  | nil => intro i acc; exact Or.inl rfl
  | cons c0 cs ih =>
      intro i acc
      cases hpc : p c0 with
      | false =>
          have hred : idxLoop p i acc (c0 :: cs) = idxLoop p (i + 1) acc cs := by
            simp [idxLoop, hpc]
          rcases ih (i + 1) acc with h | ⟨k, c, hk, hp, hv⟩
          · exact Or.inl (by rw [hred, h])
          · refine Or.inr ⟨k + 1, c, by simpa using hk, hp, ?_⟩
            rw [hred, hv]; push_cast; ring
      | true =>
          have hred : idxLoop p i acc (c0 :: cs)
              = idxLoop p (i + 1) (max acc (i : Int)) cs := by
            simp [idxLoop, hpc]
          rcases ih (i + 1) (max acc (i : Int)) with h | ⟨k, c, hk, hp, hv⟩
          · rcases le_total acc (i : Int) with hle | hle
            · refine Or.inr ⟨0, c0, by simp, hpc, ?_⟩
              rw [hred, h, max_eq_right hle]; push_cast; ring
            · exact Or.inl (by rw [hred, h, max_eq_left hle])
          · refine Or.inr ⟨k + 1, c, by simpa using hk, hp, ?_⟩
            rw [hred, hv]; push_cast; ring

theorem idxLoop_no_match (p : Cell → Bool) :
    ∀ (cs : List Cell), (∀ c ∈ cs, p c = false) →
      ∀ (i : Nat) (acc : Int), idxLoop p i acc cs = acc := by
  intro cs
  induction cs with
  | nil => intro _ i acc; rfl
  | cons c0 cs ih =>
      intro h i acc
      have h0 : p c0 = false := h c0 (by simp)
      have hrest : ∀ c ∈ cs, p c = false := fun c hc => h c (by simp [hc])
      simp [idxLoop, h0, ih hrest]

theorem idxLoop_congr (p q : Cell → Bool) (f : Cell → Cell)
    (hpq : ∀ c, q (f c) = p c) :
    ∀ (cs : List Cell) (i : Nat) (acc : Int),
      idxLoop q i acc (cs.map f) = idxLoop p i acc cs := by
  intro cs
  induction cs with
  | nil => intro i acc; rfl
  | cons c0 cs ih =>
      intro i acc
      simp [idxLoop, hpq c0, ih]

/-! ### Lemmas about the classification loop -/

theorem classifyStep_eq (acc : String) (o : OutputRec) :
    classifyStep acc o = acc ++ contribOf o := by
  cases o with
  | stream t => rfl
  | execResult d =>
      cases h : plainTextOf d <;>
        simp [classifyStep, contribOf, h, String.append_empty]
  | displayData d =>
      cases h : plainTextOf d <;>
        simp [classifyStep, contribOf, h, String.append_empty]
  | err tb => rfl
  | other => simp [classifyStep, contribOf, String.append_empty]

theorem foldl_classifyStep (outs : List OutputRec) :
    ∀ acc : String, outs.foldl classifyStep acc = acc ++ collectTextSpec outs := by
  induction outs with
  | nil => intro acc; simp [collectTextSpec, String.append_empty]
  | cons o os ih =>
      intro acc
      simp [List.foldl, classifyStep_eq, ih, collectTextSpec,
        String.append_assoc]

theorem collectText_eq_spec (outs : List OutputRec) :
    collectText outs = collectTextSpec outs := by
  have h := foldl_classifyStep outs ""
  simpa [collectText, String.empty_append] using h

/-! ### The claims -/

/-- Claim C2: whenever at least one cell carries a tag whose
case-insensitive value equals the health marker, the selected cutoff is
the tag-pass cutoff, which equals the maximum index over all such tagged
cells; the cutoff does not depend on the cell sources, so the
content-heuristic marker scan is never consulted. -/
theorem claim_C2_tag_rule (cells : List Cell) (j : Nat) (c : Cell)
    (hj : cells[j]? = some c) (hc : tagSelected c = true) :
    lastNeededIdx cells = tagCutoff cells ∧
    (∃ (k : Nat) (kc : Cell), cells[k]? = some kc ∧ tagSelected kc = true ∧
      tagCutoff cells = (k : Int)) ∧
    (∀ (k : Nat) (kc : Cell), cells[k]? = some kc → tagSelected kc = true →
      (k : Int) ≤ tagCutoff cells) ∧
    (∀ f : String → String,
      lastNeededIdx (cells.map (fun d => { d with source := f d.source })) =
        lastNeededIdx cells) := by
  have hub : ∀ (k : Nat) (kc : Cell), cells[k]? = some kc →
      tagSelected kc = true → (k : Int) ≤ tagCutoff cells := by
    intro k kc hk hkc
    have h := idxLoop_upper tagSelected cells 0 (-1) k kc hk hkc
    simpa [tagCutoff] using h
  have hj' : (j : Int) ≤ tagCutoff cells := hub j c hj hc
  have hnonneg : (0 : Int) ≤ tagCutoff cells :=
    le_trans (Int.natCast_nonneg j) hj'
  have hnot : ¬ (tagCutoff cells < 0) := not_lt.mpr hnonneg
  have hmain : lastNeededIdx cells = tagCutoff cells := by
    simp [lastNeededIdx, hnot]
  have hex : ∃ (k : Nat) (kc : Cell), cells[k]? = some kc ∧
      tagSelected kc = true ∧ tagCutoff cells = (k : Int) := by
    rcases idxLoop_eq_acc_or_mem tagSelected cells 0 (-1) with h | ⟨k, kc, hk, hkc, hv⟩
    · exfalso
      have : tagCutoff cells = -1 := h
      omega
    · exact ⟨k, kc, hk, hkc, by simpa [tagCutoff] using hv⟩
  refine ⟨hmain, hex, hub, ?_⟩
  intro f
  have hsel : ∀ d : Cell,
      tagSelected ({ d with source := f d.source }) = tagSelected d :=
    fun d => rfl
  have htag : tagCutoff (cells.map (fun d => { d with source := f d.source })) =
      tagCutoff cells :=
    idxLoop_congr tagSelected tagSelected _ hsel cells 0 (-1)
  have hnot' : ¬ (tagCutoff (cells.map (fun d => { d with source := f d.source })) < 0) := by
    rw [htag]; exact hnot
  simp [lastNeededIdx, hnot, hnot', htag]

/-- Claim C2 witness: in the 5-cell scenario with cell 2 tagged
`UI:Health` and markers in cells 3 and 4, the cutoff is 2 and comes from
the tag pass. -/
theorem claim_C2_tag_rule_witness :
    lastNeededIdx w2cells = 2 ∧ lastNeededIdx w2cells = tagCutoff w2cells := by
  have h := claim_C2_tag_rule w2cells 2 w2tagCell (by decide) (by decide)
  exact ⟨by decide, h.1⟩

/-- Claim C3: when no cell is health-tagged but some non-pip cell
contains a marker substring, the cutoff is the heuristic cutoff, which
equals the maximum index over heuristic-selected cells, and a cell whose
left-stripped source starts with the pip directive is never
heuristic-selected. -/
theorem claim_C3_heuristic_rule (cells : List Cell)
    (hnotag : ∀ c ∈ cells, tagSelected c = false)
    (j : Nat) (c : Cell) (hj : cells[j]? = some c)
    (hc : heurSelected c = true) :
    lastNeededIdx cells = heuristicCutoff cells ∧
    (∃ (k : Nat) (kc : Cell), cells[k]? = some kc ∧ heurSelected kc = true ∧
      heuristicCutoff cells = (k : Int)) ∧
    (∀ (k : Nat) (kc : Cell), cells[k]? = some kc → heurSelected kc = true →
      (k : Int) ≤ heuristicCutoff cells) ∧
    (∀ kc : Cell, strStarts (pyLstrip kc.source) pipDirective = true →
      heurSelected kc = false) := by
  have htag : tagCutoff cells = -1 :=
    idxLoop_no_match tagSelected cells hnotag 0 (-1)
  have hub : ∀ (k : Nat) (kc : Cell), cells[k]? = some kc →
      heurSelected kc = true → (k : Int) ≤ heuristicCutoff cells := by
    intro k kc hk hkc
    have h := idxLoop_upper heurSelected cells 0 (-1) k kc hk hkc
    simpa [heuristicCutoff] using h
  have hj' : (j : Int) ≤ heuristicCutoff cells := hub j c hj hc
  have hnonneg : (0 : Int) ≤ heuristicCutoff cells :=
    le_trans (Int.natCast_nonneg j) hj'
  have hnoth : ¬ (heuristicCutoff cells < 0) := not_lt.mpr hnonneg
  have hmain : lastNeededIdx cells = heuristicCutoff cells := by
    simp [lastNeededIdx, htag, hnoth]
  have hex : ∃ (k : Nat) (kc : Cell), cells[k]? = some kc ∧
      heurSelected kc = true ∧ heuristicCutoff cells = (k : Int) := by
    rcases idxLoop_eq_acc_or_mem heurSelected cells 0 (-1) with h | ⟨k, kc, hk, hkc, hv⟩
    · exfalso
      have : heuristicCutoff cells = -1 := h
      omega
    · exact ⟨k, kc, hk, hkc, by simpa [heuristicCutoff] using hv⟩
  refine ⟨hmain, hex, hub, ?_⟩
  intro kc hpip
  simp [heurSelected, hpip]

/-- Claim C3 witness: in the 25-cell scenario with markers at indices 3
and 7 and a marker-bearing pip cell at index 4, the cutoff is 7 and
comes from the heuristic pass. -/
theorem claim_C3_heuristic_rule_witness :
    lastNeededIdx w3cells = 7 ∧
    lastNeededIdx w3cells = heuristicCutoff w3cells := by
  have h := claim_C3_heuristic_rule w3cells (by decide) 7 w3m2 (by decide) (by decide)
  exact ⟨by decide, h.1⟩

/-- Claim C4: with neither a health tag nor a marker match the cutoff is
`min(lastIndex, 19)`; on the empty document the fallback degenerates to
`-1` and the reduced document is the synthesis cell alone. -/
theorem claim_C4_fallback :
    (∀ cells : List Cell, (∀ c ∈ cells, tagSelected c = false) →
      (∀ c ∈ cells, heurSelected c = false) →
      lastNeededIdx cells = min ((cells.length : Int) - 1) 19) ∧
    lastNeededIdx [] = -1 ∧
    buildReduced [] (lastNeededIdx []) = [synthesisCell] := by
  refine ⟨?_, by decide, by decide⟩
  intro cells h1 h2
  have htag : tagCutoff cells = -1 :=
    idxLoop_no_match tagSelected cells h1 0 (-1)
  have hheur : heuristicCutoff cells = -1 :=
    idxLoop_no_match heurSelected cells h2 0 (-1)
  simp [lastNeededIdx, htag, hheur]

/-- Claim C4 witness: a 30-cell document with no tags and no markers
falls back to cutoff `min(29, 19) = 19`. -/
theorem claim_C4_fallback_witness :
    lastNeededIdx (List.replicate 30 blankCell) = 19 := by
  have h := claim_C4_fallback.1 (List.replicate 30 blankCell)
    (by decide) (by decide)
  rw [h]; decide

/-- Claim C5: whenever any effectful step of the pipeline raises — the
notebook load, the execution engine (timeouts included), or the
output inspection (`cells[-1]` on an empty cell list) — the top-level
handler converts it to a plain `false` return. -/
theorem claim_C5_exception_to_false (env : RunEnv)
    (h : (∃ e, env.load = Except.error e) ∨
         (∃ cells e, env.load = Except.ok cells ∧
           env.exec (buildReduced cells (lastNeededIdx cells)) =
             Except.error e) ∨
         (∃ cells executed, env.load = Except.ok cells ∧
           env.exec (buildReduced cells (lastNeededIdx cells)) =
             Except.ok executed ∧
           executed.getLast? = none)) :
    run_health_audit_notebook env = false := by
  rcases h with ⟨e, he⟩ | ⟨cells, e, hl, he⟩ | ⟨cells, executed, hl, he, hg⟩
  · simp [run_health_audit_notebook, he]
  · simp [run_health_audit_notebook, hl, he]
  · simp [run_health_audit_notebook, hl, he, inspectBuffer, hg]

/-- Claim C5 witness: an environment whose notebook load raises yields
`false`. -/
theorem claim_C5_exception_to_false_witness :
    run_health_audit_notebook env5 = false :=
  claim_C5_exception_to_false env5
    (Or.inl ⟨"FileNotFoundError: WSB-DSS.ipynb", rfl⟩)

/-- Claim C1 as stated is false: the run's boolean is `true` on every
exception-free pipeline even when the success marker is absent from the
synthesis cell's concatenated output (`persisted` is computed and then
ignored; the function returns the constant `True`). -/
theorem claim_C1_counterexample :
    ¬ (run_health_audit_notebook envC1 = true ↔ markerSeen envC1 = true) := by
  decide

/-- Claim C1 (amended): whenever loading, execution and output
inspection all complete without a top-level exception, the boolean
result is `true`, regardless of whether the success marker occurs in
the synthesis cell's concatenated output text. -/
theorem claim_C1_true_on_clean_run (env : RunEnv) (cells : List Cell)
    (executed : List ExecCell) (buf : String)
    (hl : env.load = Except.ok cells)
    (he : env.exec (buildReduced cells (lastNeededIdx cells)) =
      Except.ok executed)
    (hb : inspectBuffer executed = some buf) :
    run_health_audit_notebook env = true := by
  simp [run_health_audit_notebook, hl, he, hb]

/-- Claim C1 witness: the marker-free clean run returns `true`. -/
theorem claim_C1_true_on_clean_run_witness :
    run_health_audit_notebook envC1 = true :=
  claim_C1_true_on_clean_run envC1 [] cexExecuted
    (collectText cexOutputs) rfl rfl rfl

/-- Claim C6: no cell of the executed reduced document has a stripped
source starting with the pip-install directive, whatever the cutoff. -/
theorem claim_C6_no_pip_cell (cells : List Cell) (cutoff : Int) (c : Cell)
    (hc : c ∈ buildReduced cells cutoff) :
    strStarts (pyStrip c.source) pipDirective = false := by
  unfold buildReduced at hc
  rcases List.mem_append.mp hc with h | h
  · have hf := (List.mem_filter.mp h).2
    simpa using hf
  · have hcs : c = synthesisCell := by simpa using h
    subst hcs
    decide

/-- Claim C6 witness: with a pip cell at index 0 inside the copied range
`[0, 1]`, the reduced document is the marker cell plus the synthesis
cell, each of which passes the no-pip check. -/
theorem claim_C6_no_pip_cell_witness :
    strStarts (pyStrip synthesisCell.source) pipDirective = false ∧
    strStarts (pyStrip w3m1.source) pipDirective = false ∧
    buildReduced w6cells 1 = [w3m1, synthesisCell] :=
  ⟨ claim_C6_no_pip_cell w6cells 1 synthesisCell (by decide)
  , claim_C6_no_pip_cell w6cells 1 w3m1 (by decide)
  , by decide ⟩

/-- Claim C7: the reduced document is the filtered prefix with exactly
one extra cell, the synthesis cell, at the last position. -/
theorem claim_C7_one_extra_cell (cells : List Cell) (cutoff : Int) :
    (buildReduced cells cutoff).length =
      (filteredPrefixCells cells cutoff).length + 1 ∧
    (buildReduced cells cutoff).dropLast = filteredPrefixCells cells cutoff ∧
    (buildReduced cells cutoff).getLast? = some synthesisCell := by
  unfold buildReduced
  refine ⟨by simp, ?_, ?_⟩
  · simp
  · simp

/-- Claim C8: the classification buffer is read from the last cell's
outputs alone and equals the in-order concatenation of each record's
contribution: stream text, the `text/plain` payload of a rich record
when present, and tracebacks joined by newlines; other records
contribute nothing. -/
theorem claim_C8_buffer_shape (executed : List ExecCell) (lastc : ExecCell)
    (h : executed.getLast? = some lastc) :
    inspectBuffer executed = some (collectTextSpec lastc.outputs) := by
  simp [inspectBuffer, h, collectText_eq_spec]

/-- Claim C8 witness: a record list exercising every arm concatenates to
the expected buffer. -/
theorem claim_C8_buffer_shape_witness :
    inspectBuffer w8exec = some ("abx\ny") := by
  have h := claim_C8_buffer_shape w8exec
    { cell := synthesisCell, outputs := w8outs } (by decide)
  rw [h]; decide

/-- Claim C9: the health endpoint is total with status always one of
`ok`, `empty`, `error`; a `false` executor result yields the fixed error
response for every storage outcome (storage is not read), and a `true`
result maps a present row to `ok` with its data, an absent row to
`empty`, and a storage exception to `error` carrying the exception
text. -/
theorem claim_C9_endpoint (env : RunEnv)
    (storage : Except String (Option HealthRow)) :
    ((run_and_get_health env storage).status = "ok" ∨
     (run_and_get_health env storage).status = "empty" ∨
     (run_and_get_health env storage).status = "error") ∧
    (run_health_audit_notebook env = false →
      run_and_get_health env storage =
        { status := "error", data := none, error := some failMsg }) ∧
    (run_health_audit_notebook env = true →
      (∀ row, storage = Except.ok (some row) →
        run_and_get_health env storage =
          { status := "ok", data := some row, error := none }) ∧
      (storage = Except.ok none →
        run_and_get_health env storage =
          { status := "empty", data := none, error := none }) ∧
      (∀ e, storage = Except.error e →
        run_and_get_health env storage =
          { status := "error", data := none, error := some e })) := by
  cases hrun : run_health_audit_notebook env with
  | false =>
      have hresp : run_and_get_health env storage =
          { status := "error", data := none, error := some failMsg } := by
        simp [run_and_get_health, hrun]
      refine ⟨?_, fun _ => hresp, fun htrue => nomatch htrue⟩
      rw [hresp]
      exact Or.inr (Or.inr rfl)
  | true =>
      refine ⟨?_, ?_, fun _ => ⟨?_, ?_, ?_⟩⟩
      · rcases storage with e | row
        · right; right; simp [run_and_get_health, hrun]
        · rcases row with _ | row
          · right; left; simp [run_and_get_health, hrun]
          · left; simp [run_and_get_health, hrun]
      · exact fun hfalse => nomatch hfalse
      · intro row hrow
        subst hrow
        simp [run_and_get_health, hrun]
      · intro hnone
        subst hnone
        simp [run_and_get_health, hrun]
      · intro e he
        subst he
        simp [run_and_get_health, hrun]

/-- Claim C9 witness: a failing executor yields the fixed error response
even with a row in storage; a successful one returns the row as `ok`. -/
theorem claim_C9_endpoint_witness :
    run_and_get_health env5 (Except.ok (some w9row)) =
      { status := "error", data := none, error := some failMsg } ∧
    run_and_get_health envC1 (Except.ok (some w9row)) =
      { status := "ok", data := some w9row, error := none } :=
  ⟨ (claim_C9_endpoint env5 (Except.ok (some w9row))).2.1 (by decide)
  , ((claim_C9_endpoint envC1 (Except.ok (some w9row))).2.2 (by decide)).1
      w9row rfl ⟩

/-- Claim C10: only string-typed tag values take part in tag selection:
a non-string tag never matches the health marker, and erasing all
non-string tag values changes neither the tag cutoff nor the selected
cutoff. -/
theorem claim_C10_nonstring_tags (cells : List Cell) :
    tagMatches TagVal.nonstr = false ∧
    tagCutoff (cells.map stripNonStrTags) = tagCutoff cells ∧
    lastNeededIdx (cells.map stripNonStrTags) = lastNeededIdx cells := by
  have hany : ∀ ts : List TagVal,
      (ts.filter isStrTag).any tagMatches = ts.any tagMatches := by
    intro ts
    induction ts with
    | nil => rfl
    | cons t ts ih =>
        cases t with
        | str s => simp [isStrTag, ih]
        | nonstr => simp [isStrTag, tagMatches, ih]
  have hsel : ∀ c : Cell, tagSelected (stripNonStrTags c) = tagSelected c :=
    fun c => hany c.tags
  have hheur : ∀ c : Cell, heurSelected (stripNonStrTags c) = heurSelected c :=
    fun _ => rfl
  have htag : tagCutoff (cells.map stripNonStrTags) = tagCutoff cells :=
    idxLoop_congr tagSelected tagSelected stripNonStrTags hsel cells 0 (-1)
  have hh : heuristicCutoff (cells.map stripNonStrTags) = heuristicCutoff cells :=
    idxLoop_congr heurSelected heurSelected stripNonStrTags hheur cells 0 (-1)
  refine ⟨rfl, htag, ?_⟩
  simp [lastNeededIdx, htag, hh, List.length_map]

end WsbDss
